import Mathlib

/-
Shallow embedding of the `python-template` repository:
`src/core/database/postgresql/repository.py` (the `PostgresRepository`
generic repository and the `Model` base class) and
`src/apis/health_check.py` (the cached health-check endpoint).

Python values relevant to the repository layer are modelled by `PyVal`;
a model instance (an ORM row) is an association list from attribute
names to values, kept in table-column order.  The SQLAlchemy session is
modelled by the `Session` structure, recording staged additions, staged
deletions and the number of `commit()` calls issued.  Queries are
modelled semantically: a query denotes the list of rows it returns.
-/

namespace PythonTemplate

/-- Scalar Python values as used by the repository layer. -/
inductive PyScalar where
  | none
  | int (n : Int)
  | str (s : String)
deriving DecidableEq, Repr

/-- Python values as used by the repository layer: scalars, and
string-keyed dicts of scalars (the `where` mini-language of `get_all`
passes dicts such as `{"$gt": a, "$lt": b}` as filter values). -/
inductive PyVal where
  | scalar (v : PyScalar)
  | dict (entries : List (String × PyScalar))
deriving DecidableEq, Repr

/-- Shorthand for an integer value. -/
def PyVal.int (n : Int) : PyVal := PyVal.scalar (PyScalar.int n)

/-- Shorthand for a string value. -/
def PyVal.str (s : String) : PyVal := PyVal.scalar (PyScalar.str s)

/-- Shorthand for the `None` value. -/
def PyVal.none : PyVal := PyVal.scalar PyScalar.none

/-- A model instance: attribute name to value, in table-column order. -/
abbrev Row := List (String × PyVal)

/-- Attribute read (`getattr`) on a model instance; absent attributes
are not exercised by the proved claims, so they read as `PyVal.none`. -/
def rowGet (r : Row) (k : String) : PyVal :=
  (List.lookup k r).getD PyVal.none

/-- Python `hasattr(model, k)` restricted to the column attributes a row
carries. -/
def hasAttrRow (r : Row) (k : String) : Bool :=
  (List.lookup k r).isSome

/-- Python `setattr(model, k, v)` for an attribute the row carries
(both call sites in the source guard with `hasattr` first, or with the
declared-field check of the constructor). -/
def setAttr (r : Row) (k : String) (v : PyVal) : Row :=
  r.map (fun e => if e.1 == k then (e.1, v) else e)

/-- The Python exceptions the repository layer can surface. -/
inductive PyError where
  | attributeError (name : String)
  | typeError (msg : String)
  | noResultFound
  | multipleResultsFound
deriving DecidableEq, Repr

/-- The SQLAlchemy `AsyncSession` as the repository uses it: staged
additions (`session.add`), staged deletions (`session.delete`) and the
number of `commit()` calls issued so far. -/
structure Session where
  added : List Row
  deleted : List Row
  commits : Nat
deriving DecidableEq, Repr

/-- A declared model class: its columns in table order, each with the
default value its declaration provides (`PyVal.none` when none). -/
structure ModelClass where
  fields : List (String × PyVal)
deriving DecidableEq, Repr

/-- Whether `k` names a declared field of the model class. -/
def declaredField (mc : ModelClass) (k : String) : Bool :=
  mc.fields.any (fun f => f.1 == k)

/-- The `join_` argument as Python receives it: `None`, a `set` of join
names, or some other container (a `list` in the spec's examples). -/
inductive JoinArg where
  | none
  | set (names : List String)
  | list (names : List String)
deriving DecidableEq, Repr

/-- Python truthiness of a `join_` argument: `None` and empty
containers are falsy. -/
def JoinArg.falsy : JoinArg → Bool
  | JoinArg.none => true
  | JoinArg.set ns => ns.isEmpty
  | JoinArg.list ns => ns.isEmpty

/-- Python `isinstance(join_, set)`. -/
def JoinArg.isSet : JoinArg → Bool
  | JoinArg.set _ => true
  | _ => false

/-- Python `join_ is not None`. -/
def JoinArg.isNotNone : JoinArg → Bool
  | JoinArg.none => false
  | _ => true

/-- The `_join_<name>` methods a (subclass of the) repository defines:
for each join name, optionally a query transformer.  `Option.none`
models a missing method, on which `getattr` raises `AttributeError`. -/
abbrev JoinFns := String → Option (List Row → List Row)

namespace PostgresRepository

/-- `PostgresRepository._add_join_to_query` (repository.py:270-278):
`getattr(self, '_join_' + join_)(query)` — looks the handler up by name
and applies it; a missing handler raises `AttributeError`. -/
def add_join_to_query (fns : JoinFns) (q : List Row) (name : String) :
    Except PyError (List Row) :=
  match fns name with
  | Option.none => Except.error (PyError.attributeError ("_join_" ++ name))
  | Option.some f => Except.ok (f q)

/-- `PostgresRepository._maybe_join` (repository.py:236-250): a falsy
`join_` returns the query unchanged; then a non-`set` raises
`TypeError('join_ must be a set')`; otherwise the join handlers are
folded over the query (`reduce(self._add_join_to_query, join_, query)`). -/
def maybe_join (fns : JoinFns) (q : List Row) (j : JoinArg) :
    Except PyError (List Row) :=
  if j.falsy then Except.ok q
  else match j with
    | JoinArg.set ns => ns.foldlM (add_join_to_query fns) q
    | _ => Except.error (PyError.typeError "join_ must be a set")

/-- Modelled from the spec: the declarative model constructor (provided
by the external ORM base class, not part of this repository's sources)
"instantiates the model with the given field values (missing attributes
default per model declaration)" and "fails with `AttributeError`-class
error if an attribute name is not a field".  Each supplied attribute is
checked against the declared fields and set in turn, starting from the
row of declared defaults. -/
def ctorStep (mc : ModelClass) (r : Row) (kv : String × PyVal) :
    Except PyError Row :=
  if declaredField mc kv.1 then Except.ok (setAttr r kv.1 kv.2)
  else Except.error (PyError.attributeError kv.1)

/-- Modelled from the spec: the declarative model constructor folds
`ctorStep` over the supplied attributes, starting from the row of
declared defaults. -/
def mkModel (mc : ModelClass) (attrs : List (String × PyVal)) :
    Except PyError Row :=
  attrs.foldlM (ctorStep mc) mc.fields

/-- `PostgresRepository.create` (repository.py:22-33): builds the model
instance from the attributes (`self.model_class(**attributes)`), stages
it with `session.add(model)` and returns it; no commit is issued.  An
exception from the constructor propagates and leaves the session
unchanged. -/
def create (mc : ModelClass) (s : Session) (attrs : List (String × PyVal)) :
    Except PyError Row × Session :=
  match mkModel mc attrs with
  | Except.error e => (Except.error e, s)
  | Except.ok m =>
      (Except.ok m, Session.mk (s.added ++ [m]) s.deleted s.commits)

/-- `PostgresRepository.delete` (repository.py:100-107): stages the
deletion with `session.delete(model)`; no commit is issued. -/
def delete (s : Session) (m : Row) : Session :=
  Session.mk s.added (s.deleted ++ [m]) s.commits

/-- One iteration of `update`'s loop (repository.py:117-119):
`if hasattr(model, key): setattr(model, key, value)`. -/
def updateStep (r : Row) (kv : String × PyVal) : Row :=
  if hasAttrRow r kv.1 then setAttr r kv.1 kv.2 else r

/-- `PostgresRepository.update` (repository.py:109-124): for each
attribute, `if hasattr(model, key): setattr(model, key, value)`; then
`session.add(model)` and `await session.commit()`; returns the model. -/
def update (s : Session) (m : Row) (attrs : List (String × PyVal)) :
    Row × Session :=
  let m2 := attrs.foldl updateStep m
  (m2, Session.mk (s.added ++ [m2]) s.deleted (s.commits + 1))

/-- Integer comparison underlying the SQL `<=`; the repository's range
bounds are integers in practice, other comparisons do not hold. -/
def pyLe : PyVal → PyVal → Bool
  | PyVal.scalar (PyScalar.int a), PyVal.scalar (PyScalar.int b) => a ≤ b
  | _, _ => false

/-- A single WHERE condition as `get_all` builds it: SQL
`BETWEEN` (inclusive on both ends) or an equality comparison. -/
inductive Cond where
  | between (field : String) (lo hi : PyVal)
  | eq (field : String) (v : PyVal)
deriving DecidableEq, Repr

/-- The condition `get_all` builds for one `where` entry
(repository.py:57-61): `if isinstance(v, dict) and '$gt' in v and
'$lt' in v` yields `between(getattr(model, k), v['$gt'], v['$lt'])`,
anything else yields `getattr(model, k) == v`. -/
def buildCond (k : String) (v : PyVal) : Cond :=
  match v with
  | PyVal.dict es =>
      match List.lookup "$gt" es, List.lookup "$lt" es with
      | Option.some lo, Option.some hi =>
          Cond.between k (PyVal.scalar lo) (PyVal.scalar hi)
      | _, _ => Cond.eq k (PyVal.dict es)
  | _ => Cond.eq k v

/-- Truth of one condition at a row: SQL `x BETWEEN lo AND hi` is
`lo <= x AND x <= hi`; equality is value equality. -/
def evalCond (r : Row) : Cond → Bool
  | Cond.between k lo hi => pyLe lo (rowGet r k) && pyLe (rowGet r k) hi
  | Cond.eq k v => rowGet r k == v

/-- The WHERE block of `PostgresRepository.get_all`
(repository.py:55-62): with no mapping the query is unchanged;
otherwise the conditions built from the entries are conjoined
(`and_(*conditions)`) and the query keeps the rows satisfying all. -/
def applyWhere (q : List Row) (w : Option (List (String × PyVal))) :
    List Row :=
  match w with
  | Option.none => q
  | Option.some entries =>
      q.filter (fun r =>
        (entries.map (fun kv => buildCond kv.1 kv.2)).all (evalCond r))

/-- The result of `get_by`: a single record (`unique=True` path) or a
list of records. -/
inductive QueryResult where
  | record (m : Row)
  | records (ms : List Row)
deriving DecidableEq, Repr

/-- `Result.one()` as `PostgresRepository._one` surfaces it
(repository.py:173-181): no row raises `NoResultFound`, more than one
raises `MultipleResultsFound`, exactly one is returned. -/
def one (ms : List Row) : Except PyError Row :=
  match ms with
  | [] => Except.error PyError.noResultFound
  | [m] => Except.ok m
  | _ => Except.error PyError.multipleResultsFound

/-- `result.unique().scalars().all()` as `all_unique` uses it
(repository.py:154-156): de-duplicate the returned rows. -/
def all_unique (ms : List Row) : List Row :=
  ms.eraseDups

/-- `PostgresRepository.get_by` (repository.py:75-98): builds the query
with `_query(join_)` (which runs `_maybe_join`), filters by equality on
the field (`_get_by`, repository.py:225-234), then: if `join_ is not
None` returns `all_unique` of the matches; else if `unique` returns
`_one`; else returns all matches. -/
def get_by (fns : JoinFns) (db : List Row) (field : String) (value : PyVal)
    (j : JoinArg) (unique : Bool) : Except PyError QueryResult :=
  match maybe_join fns db j with
  | Except.error e => Except.error e
  | Except.ok q =>
      let hits := q.filter (fun r => rowGet r field == value)
      if j.isNotNone then Except.ok (QueryResult.records (all_unique hits))
      else if unique then
        match one hits with
        | Except.error e => Except.error e
        | Except.ok m => Except.ok (QueryResult.record m)
      else Except.ok (QueryResult.records hits)

end PostgresRepository

/-- `Model.as_dict` (repository.py:281-287):
`{c.name: getattr(self, c.name) for c in self.__table__.columns}` — the
declared columns, in table order, each mapped to its current value. -/
def as_dict (mc : ModelClass) (r : Row) : List (String × PyVal) :=
  mc.fields.map (fun c => (c.1, rowGet r c.1))

/-- A repository staging operation: a `create` call (with its attribute
mapping) or a `delete` call (with its model). -/
inductive StageOp where
  | createOp (attrs : List (String × PyVal))
  | deleteOp (m : Row)

/-- Runs a sequence of `create`/`delete` calls against a session;
`create`'s constructor exception leaves the session unchanged. -/
def runStageOps (mc : ModelClass) (s : Session) : List StageOp → Session
  | [] => s
  | StageOp.createOp attrs :: rest =>
      runStageOps mc (PostgresRepository.create mc s attrs).2 rest
  | StageOp.deleteOp m :: rest =>
      runStageOps mc (PostgresRepository.delete s m) rest

/-- The query-parameter model of the health-check endpoint
(health_check.py:10-12): two optional string fields. -/
structure Test where
  test1 : Option String
  test2 : Option String
deriving DecidableEq, Repr

/-- An HTTP request as the handler receives it (unused by the body). -/
structure Request where
  path : String
  queryParams : List (String × String)
deriving DecidableEq, Repr

/-- An HTTP response: status code and JSON-object body. -/
structure HttpResponse where
  statusCode : Nat
  body : List (String × PyVal)
deriving DecidableEq, Repr

/-- `HealthCheck.get` (health_check.py:15-21): ignores the request and
the query parameters and returns `{'status': 'ok'}`; it reads and
writes no other state (the body is a single `return`). -/
def healthCheckGet (_req : Request) (_q : Test) : List (String × PyVal) :=
  [("status", PyVal.str "ok")]

/-- Modelled from the spec: the `HTTPEndpoint` base class and the cache
decorator (imported from `src.core`, which is not among this
repository's sources) deliver the dict a GET handler returns as the
response body with HTTP 200. -/
def runGet (handler : Request → Test → List (String × PyVal))
    (req : Request) (q : Test) : HttpResponse :=
  HttpResponse.mk 200 (handler req q)

/-- The `where` mini-language as the spec states it: a dict carrying
both the `$gt` and the `$lt` key filters by the inclusive range
`a <= field <= b`; every other value — including a dict carrying only
one of the two bound keys — filters by equality. -/
def specWhereFilter (k : String) (v : PyVal) (r : Row) : Bool :=
  match v with
  | PyVal.dict es =>
      match List.lookup "$gt" es, List.lookup "$lt" es with
      | Option.some lo, Option.some hi =>
          PostgresRepository.pyLe (PyVal.scalar lo) (rowGet r k) &&
            PostgresRepository.pyLe (rowGet r k) (PyVal.scalar hi)
      | _, _ => rowGet r k == PyVal.dict es
  | _ => rowGet r k == v

/-- A repository with no `_join_<name>` method at all (witness data). -/
def fnsEmpty : JoinFns := fun _ => Option.none

/-- A repository whose only join handler is `_join_x`, the identity on
queries (witness data). -/
def fnsX : JoinFns :=
  fun n => if n == "x" then Option.some (fun rows => rows) else Option.none

/-- A fresh session with nothing staged and no commit issued
(witness data). -/
def s0 : Session := Session.mk [] [] 0

/-- A two-column model class: `id` with no default and `name`
defaulting to `"anon"` (witness data). -/
def mc1 : ModelClass :=
  ModelClass.mk [("id", PyVal.none), ("name", PyVal.str "anon")]

/-
Helper lemmas about attribute rows and the fold structure of the
constructor and of `update`.
-/

theorem lookup_eq_none_of_not_mem_keys (k : String) :
    ∀ l : List (String × PyVal), k ∉ l.map Prod.fst →
      List.lookup k l = Option.none := by
  intro l
  induction l with
  | nil => intro _; rfl
  | cons e t ih =>
    intro h
    obtain ⟨ek, ev⟩ := e
    simp only [List.map_cons, List.mem_cons] at h
    push_neg at h
    rw [List.lookup_cons]
    simp only [beq_eq_false_iff_ne.mpr h.1]
    exact ih h.2

theorem lookup_map_keep_none (g : String × PyVal → PyVal) (k : String) :
    ∀ l : List (String × PyVal), List.lookup k l = Option.none →
      List.lookup k (l.map (fun e => (e.1, g e))) = Option.none := by
  intro l
  induction l with
  | nil => intro _; rfl
  | cons e t ih =>
    intro h
    obtain ⟨ek, ev⟩ := e
    rw [List.lookup_cons] at h
    cases hb : (k == ek) with
    | true => rw [hb] at h; exact absurd h (by simp)
    | false =>
      rw [hb] at h
      simp only [List.map_cons, List.lookup_cons, hb]
      exact ih h

theorem lookup_map_keep_of_mem (g : String × PyVal → PyVal) :
    ∀ (l : List (String × PyVal)) (c : String × PyVal),
      (l.map Prod.fst).Nodup → c ∈ l →
      List.lookup c.1 (l.map (fun e => (e.1, g e))) = Option.some (g c) := by
  intro l
  induction l with
  | nil => intro c _ hc; exact absurd hc (List.not_mem_nil c)
  | cons e t ih =>
    intro c hnd hc
    obtain ⟨ek, ev⟩ := e
    simp only [List.map_cons, List.nodup_cons] at hnd
    rcases List.mem_cons.mp hc with hce | hct
    · subst hce
      simp [List.lookup_cons]
    · have hne : c.1 ≠ ek := by
        intro he
        exact hnd.1 (he ▸ List.mem_map_of_mem Prod.fst hct)
      simp only [List.map_cons, List.lookup_cons,
        beq_eq_false_iff_ne.mpr hne]
      exact ih c hnd.2 hct

theorem setAttr_of_lookup_none (k : String) (v : PyVal) :
    ∀ r : Row, List.lookup k r = Option.none → setAttr r k v = r := by
  intro r
  induction r with
  | nil => intro _; rfl
  | cons e t ih =>
    intro h
    obtain ⟨ek, ev⟩ := e
    rw [List.lookup_cons] at h
    cases hb : (k == ek) with
    | true => rw [hb] at h; exact absurd h (by simp)
    | false =>
      rw [hb] at h
      have hbs : (ek == k) = false :=
        beq_eq_false_iff_ne.mpr (Ne.symm (beq_eq_false_iff_ne.mp hb))
      unfold setAttr
      simp only [List.map_cons, hbs, Bool.false_eq_true, if_false]
      have ht := ih h
      unfold setAttr at ht
      rw [ht]

theorem updateStep_eq_setAttr (r : Row) (kv : String × PyVal) :
    PostgresRepository.updateStep r kv = setAttr r kv.1 kv.2 := by
  unfold PostgresRepository.updateStep
  by_cases h : hasAttrRow r kv.1 = true
  · rw [if_pos h]
  · rw [if_neg h]
    have h2 : List.lookup kv.1 r = Option.none := by
      unfold hasAttrRow at h
      cases hx : List.lookup kv.1 r
      · rfl
      · rw [hx] at h; exact absurd rfl h
    exact (setAttr_of_lookup_none kv.1 kv.2 r h2).symm

theorem foldl_updateStep_eq (attrs : List (String × PyVal)) (m : Row) :
    attrs.foldl PostgresRepository.updateStep m =
      attrs.foldl (fun acc kv => setAttr acc kv.1 kv.2) m := by
  have he : PostgresRepository.updateStep =
      fun acc kv => setAttr acc kv.1 kv.2 := by
    funext r kv
    exact updateStep_eq_setAttr r kv
  rw [he]

theorem foldl_setAttr_eq_map :
    ∀ (attrs : List (String × PyVal)) (r : Row), (attrs.map Prod.fst).Nodup →
      attrs.foldl (fun acc kv => setAttr acc kv.1 kv.2) r =
        r.map (fun e => (e.1, (List.lookup e.1 attrs).getD e.2)) := by
  intro attrs
  induction attrs with
  | nil =>
    intro r _
    have he : (fun e : String × PyVal =>
        (e.1, (List.lookup e.1 ([] : List (String × PyVal))).getD e.2)) =
        fun e => e := by
      funext e
      rfl
    rw [List.foldl_nil, he, List.map_id']
  | cons kv rest ih =>
    intro r hnd
    obtain ⟨k, v⟩ := kv
    simp only [List.map_cons, List.nodup_cons] at hnd
    rw [List.foldl_cons, ih (setAttr r k v) hnd.2]
    unfold setAttr
    rw [List.map_map]
    congr 1
    funext e
    by_cases he : e.1 = k
    · have hb : (e.1 == k) = true := beq_iff_eq.mpr he
      simp only [Function.comp, hb, if_true, List.lookup_cons]
      rw [he, lookup_eq_none_of_not_mem_keys k rest hnd.1]
      rfl
    · have hb : (e.1 == k) = false := beq_eq_false_iff_ne.mpr he
      simp only [Function.comp, hb, Bool.false_eq_true, if_false,
        List.lookup_cons]

theorem foldlM_ctorStep_ok (mc : ModelClass) :
    ∀ (attrs : List (String × PyVal)) (r : Row),
      (∀ kv ∈ attrs, declaredField mc kv.1 = true) →
      attrs.foldlM (PostgresRepository.ctorStep mc) r =
        Except.ok (attrs.foldl (fun acc kv => setAttr acc kv.1 kv.2) r) := by
  intro attrs
  induction attrs with
  | nil => intro r _; rfl
  | cons kv rest ih =>
    intro r h
    have hk := h kv (List.mem_cons_self kv rest)
    rw [List.foldlM_cons]
    unfold PostgresRepository.ctorStep
    rw [hk]
    simp only [if_true]
    rw [List.foldl_cons]
    have hrest : ∀ kv' ∈ rest, declaredField mc kv'.1 = true :=
      fun kv' hkv' => h kv' (List.mem_cons_of_mem kv hkv')
    simpa using ih (setAttr r kv.1 kv.2) hrest

theorem foldlM_ctorStep_error (mc : ModelClass) :
    ∀ (attrs : List (String × PyVal)) (r : Row),
      (∃ kv ∈ attrs, declaredField mc kv.1 = false) →
      ∃ bad, attrs.foldlM (PostgresRepository.ctorStep mc) r =
          Except.error (PyError.attributeError bad) ∧
        declaredField mc bad = false := by
  intro attrs
  induction attrs with
  | nil =>
    intro r h
    obtain ⟨kv, hkv, _⟩ := h
    exact absurd hkv (List.not_mem_nil kv)
  | cons kv rest ih =>
    intro r h
    by_cases hd : declaredField mc kv.1 = true
    · obtain ⟨kv', hkv', hf'⟩ := h
      have hrest : kv' ∈ rest := by
        rcases List.mem_cons.mp hkv' with hh | hh
        · rw [hh] at hf'; rw [hd] at hf'; exact absurd hf' (by simp)
        · exact hh
      rw [List.foldlM_cons]
      unfold PostgresRepository.ctorStep
      rw [hd]
      simp only [if_true]
      simpa using ih (setAttr r kv.1 kv.2) ⟨kv', hrest, hf'⟩
    · have hdf : declaredField mc kv.1 = false := by
        cases hx : declaredField mc kv.1
        · rfl
        · exact absurd hx hd
      refine ⟨kv.1, ?_, hdf⟩
      rw [List.foldlM_cons]
      unfold PostgresRepository.ctorStep
      rw [hdf]
      rfl

theorem foldlM_join_error (fns : JoinFns) :
    ∀ (ns : List String) (q : List Row), (∃ x ∈ ns, fns x = Option.none) →
      ∃ name, ns.foldlM (PostgresRepository.add_join_to_query fns) q =
          Except.error (PyError.attributeError ("_join_" ++ name)) ∧
        fns name = Option.none := by
  intro ns
  induction ns with
  | nil =>
    intro q h
    obtain ⟨x, hx, _⟩ := h
    exact absurd hx (List.not_mem_nil x)
  | cons n rest ih =>
    intro q h
    cases hfn : fns n with
    | none =>
      refine ⟨n, ?_, hfn⟩
      rw [List.foldlM_cons]
      unfold PostgresRepository.add_join_to_query
      rw [hfn]
      rfl
    | some f =>
      obtain ⟨x, hx, hxf⟩ := h
      have hxrest : x ∈ rest := by
        rcases List.mem_cons.mp hx with hh | hh
        · rw [hh, hfn] at hxf; exact absurd hxf (by simp)
        · exact hh
      rw [List.foldlM_cons]
      unfold PostgresRepository.add_join_to_query
      rw [hfn]
      simpa using ih (f q) ⟨x, hxrest, hxf⟩

theorem foldlM_join_ok (fns : JoinFns) :
    ∀ (ns : List String) (q : List Row), (∀ x ∈ ns, (fns x).isSome = true) →
      ns.foldlM (PostgresRepository.add_join_to_query fns) q =
        Except.ok (ns.foldl (fun acc x => ((fns x).getD id) acc) q) := by
  intro ns
  induction ns with
  | nil => intro q _; rfl
  | cons n rest ih =>
    intro q h
    cases hfn : fns n with
    | none =>
      have := h n (List.mem_cons_self n rest)
      rw [hfn] at this
      exact absurd this (by simp)
    | some f =>
      rw [List.foldlM_cons]
      unfold PostgresRepository.add_join_to_query
      rw [hfn, List.foldl_cons]
      have hrest : ∀ x ∈ rest, (fns x).isSome = true :=
        fun x hx => h x (List.mem_cons_of_mem n hx)
      have hgd : ((fns n).getD id) = f := by rw [hfn]; rfl
      rw [hgd]
      simpa using ih (f q) hrest

/-
The claims, one theorem each.
-/

/-- C10: for every request and every value of the optional `test1`
(and `test2`) query parameter, the health-check GET handler produces
the constant payload `{"status": "ok"}` with HTTP 200; the handler is a
pure function of its inputs, so it has no other effect. -/
theorem health_check_constant_response (req : Request) (q : Test) :
    runGet healthCheckGet req q =
      HttpResponse.mk 200 [("status", PyVal.str "ok")] := rfl

/-- C7: every falsy `join_` argument — `None`, the empty set, and also
empty non-set containers such as the empty list — makes `_maybe_join`
return the query unchanged without an error, because the emptiness
check precedes the set-type check. -/
theorem maybe_join_falsy_unchanged (fns : JoinFns) (q : List Row)
    (j : JoinArg) (h : j.falsy = true) :
    PostgresRepository.maybe_join fns q j = Except.ok q := by
  simp [PostgresRepository.maybe_join, h]

/-- Witness for C7 at the empty (non-set) list argument. -/
theorem maybe_join_falsy_unchanged_witness :
    JoinArg.falsy (JoinArg.list []) = true ∧
      PostgresRepository.maybe_join fnsEmpty [] (JoinArg.list []) =
        Except.ok [] :=
  ⟨rfl, maybe_join_falsy_unchanged fnsEmpty [] (JoinArg.list []) rfl⟩

/-- C6 as stated is false: the empty list is not a set, yet
`_maybe_join` returns the query unchanged instead of raising
`TypeError`, because the emptiness check runs first. -/
theorem maybe_join_nonset_counterexample :
    JoinArg.isSet (JoinArg.list []) = false ∧
      PostgresRepository.maybe_join fnsX [[("id", PyVal.int 1)]]
          (JoinArg.list []) =
        Except.ok [[("id", PyVal.int 1)]] :=
  ⟨rfl, rfl⟩

/-- C6 (amended): every non-falsy (in particular non-empty) `join_`
argument that is not a set makes `_maybe_join` — and hence a `get_by`
call passing it — fail with `TypeError('join_ must be a set')`. -/
theorem maybe_join_nonempty_nonset_type_error (fns : JoinFns)
    (db : List Row) (field : String) (value : PyVal) (q : List Row)
    (j : JoinArg) (hfalsy : j.falsy = false) (hset : j.isSet = false) :
    PostgresRepository.maybe_join fns q j =
        Except.error (PyError.typeError "join_ must be a set") ∧
      ∀ u : Bool, PostgresRepository.get_by fns db field value j u =
        Except.error (PyError.typeError "join_ must be a set") := by
  cases j with
  | none => exact absurd hfalsy (by simp [JoinArg.falsy])
  | set ns => exact absurd hset (by simp [JoinArg.isSet])
  | list ns =>
    have hmj : ∀ q' : List Row,
        PostgresRepository.maybe_join fns q' (JoinArg.list ns) =
          Except.error (PyError.typeError "join_ must be a set") := by
      intro q'
      have hne : ns.isEmpty = false := hfalsy
      simp [PostgresRepository.maybe_join, JoinArg.falsy, hne]
    refine ⟨hmj q, fun u => ?_⟩
    unfold PostgresRepository.get_by
    rw [hmj db]

/-- Witness for C6 (amended) at the non-empty list argument `["x"]`. -/
theorem maybe_join_nonempty_nonset_type_error_witness :
    PostgresRepository.maybe_join fnsEmpty [] (JoinArg.list ["x"]) =
        Except.error (PyError.typeError "join_ must be a set") ∧
      PostgresRepository.get_by fnsEmpty [] "id" (PyVal.int 0)
          (JoinArg.list ["x"]) true =
        Except.error (PyError.typeError "join_ must be a set") :=
  ⟨(maybe_join_nonempty_nonset_type_error fnsEmpty [] "id" (PyVal.int 0)
      [] (JoinArg.list ["x"]) rfl rfl).1,
   (maybe_join_nonempty_nonset_type_error fnsEmpty [] "id" (PyVal.int 0)
      [] (JoinArg.list ["x"]) rfl rfl).2 true⟩

/-- C5: `create` and `delete` only stage their change and never issue a
commit — any sequence of them leaves the session's commit count
unchanged — while `update` is the operation that commits (it increments
the commit count); queries never touch the session's staged state by
construction. -/
theorem staging_ops_do_not_commit (mc : ModelClass) (s : Session) :
    (∀ ops : List StageOp, (runStageOps mc s ops).commits = s.commits) ∧
    ∀ (m : Row) (attrs : List (String × PyVal)),
      ((PostgresRepository.update s m attrs).2).commits = s.commits + 1 := by
  constructor
  · intro ops
    induction ops generalizing s with
    | nil => rfl
    | cons op rest ih =>
      cases op with
      | createOp attrs =>
        have hc : ((PostgresRepository.create mc s attrs).2).commits =
            s.commits := by
          unfold PostgresRepository.create
          cases PostgresRepository.mkModel mc attrs <;> rfl
        show (runStageOps mc
          (PostgresRepository.create mc s attrs).2 rest).commits = s.commits
        rw [ih, hc]
      | deleteOp m =>
        show (runStageOps mc
          (PostgresRepository.delete s m) rest).commits = s.commits
        rw [ih]
        rfl
  · intro m attrs
    rfl

/-- C8: for a set-typed `join_`, `_maybe_join` fails with an
`AttributeError` on the missing `_join_<name>` method as soon as some
listed name has no handler, and when every name has a handler it
applies them all to the query. -/
theorem maybe_join_dispatch (fns : JoinFns) (ns : List String)
    (q : List Row) :
    ((∃ x ∈ ns, fns x = Option.none) →
      ∃ name, PostgresRepository.maybe_join fns q (JoinArg.set ns) =
          Except.error (PyError.attributeError ("_join_" ++ name)) ∧
        fns name = Option.none) ∧
    ((∀ x ∈ ns, (fns x).isSome = true) →
      PostgresRepository.maybe_join fns q (JoinArg.set ns) =
        Except.ok (ns.foldl (fun acc x => ((fns x).getD id) acc) q)) := by
  cases ns with
  | nil =>
    constructor
    · intro h
      obtain ⟨x, hx, _⟩ := h
      exact absurd hx (List.not_mem_nil x)
    · intro _
      rfl
  | cons n t =>
    have hred : PostgresRepository.maybe_join fns q (JoinArg.set (n :: t)) =
        (n :: t).foldlM (PostgresRepository.add_join_to_query fns) q := rfl
    constructor
    · intro h
      rw [hred]
      exact foldlM_join_error fns (n :: t) q h
    · intro h
      rw [hred]
      exact foldlM_join_ok fns (n :: t) q h

/-- Witness for C8: with only `_join_x` defined, `{"y"}` fails with the
`AttributeError` for `_join_y` and `{"x"}` applies the handler. -/
theorem maybe_join_dispatch_witness :
    (∃ name, PostgresRepository.maybe_join fnsX [] (JoinArg.set ["y"]) =
        Except.error (PyError.attributeError ("_join_" ++ name)) ∧
      fnsX name = Option.none) ∧
      PostgresRepository.maybe_join fnsX [] (JoinArg.set ["x"]) =
        Except.ok [] := by
  constructor
  · exact (maybe_join_dispatch fnsX ["y"] []).1
      ⟨"y", List.mem_singleton.mpr rfl, rfl⟩
  · have h := (maybe_join_dispatch fnsX ["x"] []).2
      (by intro x hx; rw [List.mem_singleton.mp hx]; rfl)
    simpa using h

/-- C1 as stated is false: with `join_` not `None` — here the empty set
— and `unique=True`, `get_by` returns the (empty) deduplicated list of
matches instead of failing with the "no result" error, because the
`join_ is not None` branch returns before the `unique` check. -/
theorem get_by_unique_join_counterexample :
    PostgresRepository.get_by fnsEmpty [] "id" (PyVal.int 0)
        (JoinArg.set []) true =
      Except.ok (PostgresRepository.QueryResult.records []) := rfl

/-- C1 (amended): when `join_` is `None`, `get_by(field, value,
unique=True)` fails with `NoResultFound` on zero matches, returns the
record on exactly one match, and fails with `MultipleResultsFound` on
several; when `join_` is not `None` (even the empty set) the `unique`
flag is ignored and the deduplicated match list is returned. -/
theorem get_by_unique_semantics (fns : JoinFns) (db : List Row)
    (field : String) (value : PyVal) :
    (db.filter (fun r => rowGet r field == value) = [] →
      PostgresRepository.get_by fns db field value JoinArg.none true =
        Except.error PyError.noResultFound) ∧
    (∀ m, db.filter (fun r => rowGet r field == value) = [m] →
      PostgresRepository.get_by fns db field value JoinArg.none true =
        Except.ok (PostgresRepository.QueryResult.record m)) ∧
    (∀ m1 m2 rest,
      db.filter (fun r => rowGet r field == value) = m1 :: m2 :: rest →
      PostgresRepository.get_by fns db field value JoinArg.none true =
        Except.error PyError.multipleResultsFound) ∧
    (∀ u : Bool,
      PostgresRepository.get_by fns db field value (JoinArg.set []) u =
        Except.ok (PostgresRepository.QueryResult.records
          (PostgresRepository.all_unique
            (db.filter (fun r => rowGet r field == value))))) := by
  have hnone : PostgresRepository.get_by fns db field value JoinArg.none
        true =
      match PostgresRepository.one
          (db.filter (fun r => rowGet r field == value)) with
      | Except.error e => Except.error e
      | Except.ok m =>
          Except.ok (PostgresRepository.QueryResult.record m) := rfl
  refine ⟨?_, ?_, ?_, ?_⟩
  · intro h
    rw [hnone, h]
    rfl
  · intro m h
    rw [hnone, h]
    rfl
  · intro m1 m2 rest h
    rw [hnone, h]
    rfl
  · intro u
    rfl

/-- Witness for C1 (amended): one matching row is returned as the
unique record. -/
theorem get_by_unique_semantics_witness :
    PostgresRepository.get_by fnsEmpty [[("id", PyVal.int 1)]] "id"
        (PyVal.int 1) JoinArg.none true =
      Except.ok (PostgresRepository.QueryResult.record
        [("id", PyVal.int 1)]) :=
  (get_by_unique_semantics fnsEmpty [[("id", PyVal.int 1)]] "id"
    (PyVal.int 1)).2.1 [("id", PyVal.int 1)] (by decide)

/-- C2: when the attribute mapping contains a key that is not a
declared field, `create` fails with the constructor's
`AttributeError`-class error for some undeclared key, and the session
is unchanged — the model is never staged. -/
theorem create_unknown_attribute (mc : ModelClass) (s : Session)
    (attrs : List (String × PyVal)) (k : String) (v : PyVal)
    (hk : (k, v) ∈ attrs) (hundecl : declaredField mc k = false) :
    (∃ bad, (PostgresRepository.create mc s attrs).1 =
        Except.error (PyError.attributeError bad) ∧
      declaredField mc bad = false) ∧
    (PostgresRepository.create mc s attrs).2 = s := by
  obtain ⟨bad, hbad, hbadf⟩ :=
    foldlM_ctorStep_error mc attrs mc.fields ⟨(k, v), hk, hundecl⟩
  have hmm : PostgresRepository.mkModel mc attrs =
      Except.error (PyError.attributeError bad) := hbad
  constructor
  · refine ⟨bad, ?_, hbadf⟩
    unfold PostgresRepository.create
    rw [hmm]
  · unfold PostgresRepository.create
    rw [hmm]

/-- Witness for C2: creating with the undeclared key `bogus` fails and
stages nothing. -/
theorem create_unknown_attribute_witness :
    (∃ bad, (PostgresRepository.create mc1 s0 [("bogus", PyVal.int 1)]).1 =
        Except.error (PyError.attributeError bad) ∧
      declaredField mc1 bad = false) ∧
    (PostgresRepository.create mc1 s0 [("bogus", PyVal.int 1)]).2 = s0 :=
  create_unknown_attribute mc1 s0 [("bogus", PyVal.int 1)] "bogus"
    (PyVal.int 1) (by decide) (by decide)

/-- The condition built for one `where` entry means, at every row,
exactly what the spec's mini-language says. -/
theorem evalCond_buildCond (k : String) (v : PyVal) (r : Row) :
    PostgresRepository.evalCond r (PostgresRepository.buildCond k v) =
      specWhereFilter k v r := by
  cases v with
  | scalar sc => rfl
  | dict es =>
    cases h1 : List.lookup "$gt" es with
    | none =>
      cases h2 : List.lookup "$lt" es <;>
        simp [PostgresRepository.buildCond, specWhereFilter,
          PostgresRepository.evalCond, h1, h2]
    | some lo =>
      cases h2 : List.lookup "$lt" es <;>
        simp [PostgresRepository.buildCond, specWhereFilter,
          PostgresRepository.evalCond, h1, h2]

/-- C3: `get_all`'s `where` mapping filters each entry by the inclusive
range `a <= field <= b` exactly when the value is a dict carrying both
the `$gt` and the `$lt` key, and by equality for every other value —
including a dict carrying only one of the two bound keys, so open-ended
ranges are not supported (`specWhereFilter` states the spec side). -/
theorem get_all_where_semantics (w : List (String × PyVal))
    (q : List Row) :
    PostgresRepository.applyWhere q (Option.some w) =
      q.filter (fun r => w.all (fun kv => specWhereFilter kv.1 kv.2 r)) := by
  show q.filter (fun r =>
      (w.map (fun kv => PostgresRepository.buildCond kv.1 kv.2)).all
        (PostgresRepository.evalCond r)) = _
  congr 1
  funext r
  induction w with
  | nil => rfl
  | cons kv t ih =>
    simp only [List.map_cons, List.all_cons, ih,
      evalCond_buildCond kv.1 kv.2 r]

/-- C4: `update` merges into the model exactly the attribute entries
whose keys the model already has, leaves it untouched at every unknown
key without raising, and commits (the commit count rises by one while
the updated model is staged). -/
theorem update_sets_known_ignores_unknown (s : Session) (m : Row)
    (attrs : List (String × PyVal))
    (hnd : (attrs.map Prod.fst).Nodup) :
    (PostgresRepository.update s m attrs).1 =
        m.map (fun e => (e.1, (List.lookup e.1 attrs).getD e.2)) ∧
    (∀ k, hasAttrRow m k = false →
      rowGet (PostgresRepository.update s m attrs).1 k = rowGet m k) ∧
    (PostgresRepository.update s m attrs).2 =
      Session.mk (s.added ++ [(PostgresRepository.update s m attrs).1])
        s.deleted (s.commits + 1) := by
  have hm : (PostgresRepository.update s m attrs).1 =
      m.map (fun e => (e.1, (List.lookup e.1 attrs).getD e.2)) := by
    show attrs.foldl PostgresRepository.updateStep m = _
    rw [foldl_updateStep_eq, foldl_setAttr_eq_map attrs m hnd]
  refine ⟨hm, ?_, rfl⟩
  intro k hk
  have hnone : List.lookup k m = Option.none := by
    unfold hasAttrRow at hk
    cases hx : List.lookup k m
    · rfl
    · rw [hx] at hk; exact absurd hk (by simp)
  rw [hm]
  unfold rowGet
  rw [lookup_map_keep_none (fun e => (List.lookup e.1 attrs).getD e.2)
    k m hnone, hnone]

/-- Witness for C4: updating `name` (a model attribute) takes effect,
the unknown key `zzz` leaves the model unchanged, and the commit count
rises by one. -/
theorem update_sets_known_ignores_unknown_witness :
    (PostgresRepository.update s0 [("id", PyVal.int 1), ("name", PyVal.str "a")]
        [("name", PyVal.str "b"), ("zzz", PyVal.int 9)]).1 =
        [("id", PyVal.int 1), ("name", PyVal.str "a")].map
          (fun e => (e.1,
            (List.lookup e.1
              [("name", PyVal.str "b"), ("zzz", PyVal.int 9)]).getD e.2)) ∧
    rowGet (PostgresRepository.update s0
        [("id", PyVal.int 1), ("name", PyVal.str "a")]
        [("name", PyVal.str "b"), ("zzz", PyVal.int 9)]).1 "zzz" =
      rowGet [("id", PyVal.int 1), ("name", PyVal.str "a")] "zzz" ∧
    (PostgresRepository.update s0 [("id", PyVal.int 1), ("name", PyVal.str "a")]
        [("name", PyVal.str "b"), ("zzz", PyVal.int 9)]).2 =
      Session.mk (s0.added ++
          [(PostgresRepository.update s0
            [("id", PyVal.int 1), ("name", PyVal.str "a")]
            [("name", PyVal.str "b"), ("zzz", PyVal.int 9)]).1])
        s0.deleted (s0.commits + 1) :=
  ⟨(update_sets_known_ignores_unknown s0
      [("id", PyVal.int 1), ("name", PyVal.str "a")]
      [("name", PyVal.str "b"), ("zzz", PyVal.int 9)] (by decide)).1,
   (update_sets_known_ignores_unknown s0
      [("id", PyVal.int 1), ("name", PyVal.str "a")]
      [("name", PyVal.str "b"), ("zzz", PyVal.int 9)] (by decide)).2.1
     "zzz" (by decide),
   (update_sets_known_ignores_unknown s0
      [("id", PyVal.int 1), ("name", PyVal.str "a")]
      [("name", PyVal.str "b"), ("zzz", PyVal.int 9)] (by decide)).2.2⟩

/-- C9: for a valid attribute mapping (every key declared, keys
distinct, columns distinct), `create` succeeds, stages exactly the new
model, and the model's `as_dict` maps every declared column, in
table-column order, to the supplied attribute value or, where none was
supplied, the declared default. -/
theorem create_as_dict_merged (mc : ModelClass) (s : Session)
    (attrs : List (String × PyVal))
    (hvalid : ∀ kv ∈ attrs, declaredField mc kv.1 = true)
    (hnd : (attrs.map Prod.fst).Nodup)
    (hfields : (mc.fields.map Prod.fst).Nodup) :
    ∃ m, (PostgresRepository.create mc s attrs).1 = Except.ok m ∧
      (PostgresRepository.create mc s attrs).2 =
        Session.mk (s.added ++ [m]) s.deleted s.commits ∧
      as_dict mc m =
        mc.fields.map (fun f => (f.1, (List.lookup f.1 attrs).getD f.2)) := by
  have hmk : PostgresRepository.mkModel mc attrs =
      Except.ok
        (attrs.foldl (fun acc kv => setAttr acc kv.1 kv.2) mc.fields) :=
    foldlM_ctorStep_ok mc attrs mc.fields hvalid
  have hfold :
      attrs.foldl (fun acc kv => setAttr acc kv.1 kv.2) mc.fields =
        mc.fields.map (fun e => (e.1, (List.lookup e.1 attrs).getD e.2)) :=
    foldl_setAttr_eq_map attrs mc.fields hnd
  refine ⟨mc.fields.map (fun e => (e.1, (List.lookup e.1 attrs).getD e.2)),
    ?_, ?_, ?_⟩
  · unfold PostgresRepository.create
    rw [hmk, hfold]
  · unfold PostgresRepository.create
    rw [hmk, hfold]
  · unfold as_dict
    apply List.map_congr_left
    intro c hc
    have hl := lookup_map_keep_of_mem
      (fun e => (List.lookup e.1 attrs).getD e.2) mc.fields c hfields hc
    unfold rowGet
    rw [hl]
    rfl

/-- Witness for C9: creating with `id` supplied gives a model whose
dict projection is `id` as supplied and `name` at its default. -/
theorem create_as_dict_merged_witness :
    ∃ m, (PostgresRepository.create mc1 s0 [("id", PyVal.int 7)]).1 =
        Except.ok m ∧
      (PostgresRepository.create mc1 s0 [("id", PyVal.int 7)]).2 =
        Session.mk (s0.added ++ [m]) s0.deleted s0.commits ∧
      as_dict mc1 m =
        mc1.fields.map
          (fun f => (f.1, (List.lookup f.1 [("id", PyVal.int 7)]).getD f.2)) :=
  create_as_dict_merged mc1 s0 [("id", PyVal.int 7)] (by decide)
    (by decide) (by decide)

end PythonTemplate
